import Mathlib

/-!
Verification of the account reconciliation engine
(`chrome/browser/signin/account_reconcilor`).

The repository ships the engine's unit tests
(`src/signin/account_reconcilor_unittest.cc`); the engine implementation
itself is not part of the source tree, so the definitions below are
modelled from the design specification (`spec.md`), faithful to its
words, and validated against the behaviours the unit tests exercise.
-/

namespace AccountReconciliation

/-- An account identifier: an opaque, case-normalized email-like string
(spec §3, "Account Identifier"). -/
abbrev Account := String

/-- Modelled from the spec: the four Action Executor primitives (§4.4).
`merge` is `PerformMergeAction`, `addToChrome` is
`PerformAddToChromeAction(account, session_index)`, `startRemove` is
`StartRemoveAction`, `logoutAll` is `PerformLogoutAllAccountsAction`. -/
inductive Action where
  | merge (account : Account)
  | addToChrome (account : Account) (sessionIndex : Nat)
  | startRemove (account : Account)
  | logoutAll
deriving DecidableEq, Repr

/-- Modelled from the spec: the engine state (§3 `ReconcileState` plus the
lifecycle flags of §4.5 and the single-flight flag of §4.3).  The missing
source file is `chrome/browser/signin/account_reconcilor.{h,cc}`.
`signedInAccount` mirrors the Sign-in Manager's authenticated username
(read-only primary account); `periodicStartCount` counts how many times the
periodic reconciliation timer has been started, so that "not restarted nor
duplicated" is observable. -/
structure AccountReconcilor where
  signedInAccount : Option Account
  registeredWithTokenService : Bool
  periodicReconciliationRunning : Bool
  periodicStartCount : Nat
  is_reconcile_started : Bool
  are_gaia_accounts_set : Bool
  gaia_accounts : List Account
  chrome_accounts : List Account
  valid_chrome_accounts : List Account
  invalid_chrome_accounts : List Account
deriving DecidableEq, Repr

/-- `IsPeriodicReconciliationRunning()` lifecycle introspection (spec §6). -/
def AccountReconcilor.IsPeriodicReconciliationRunning
    (r : AccountReconcilor) : Bool :=
  r.periodicReconciliationRunning

/-- `IsRegisteredWithTokenService()` lifecycle introspection (spec §6). -/
def AccountReconcilor.IsRegisteredWithTokenService
    (r : AccountReconcilor) : Bool :=
  r.registeredWithTokenService

/-- Modelled from the spec: primary account as read from the Sign-in
Manager (spec §3 `PrimaryAccount`). -/
def AccountReconcilor.primaryAccount (r : AccountReconcilor) : Account :=
  r.signedInAccount.getD ""

/-- Modelled from the spec: `AreAllRefreshTokensChecked()` (§4.2):
completion is detected when every account that was pending at the time
validation started (`chrome_accounts`) has received a valid/invalid
classification. -/
def AccountReconcilor.areAllRefreshTokensChecked
    (r : AccountReconcilor) : Bool :=
  r.chrome_accounts.all fun a =>
    decide (a ∈ r.valid_chrome_accounts) ||
      decide (a ∈ r.invalid_chrome_accounts)

/-- Modelled from the spec: the bad-primary test of the diff algorithm
(§4.3 step 1): `gaia_accounts` is non-empty and its first element is not
the primary account. -/
def badPrimary (primary : Account) (gaia : List Account) : Bool :=
  match gaia with
  | [] => false
  | g :: _ => decide (g ≠ primary)

/-- Modelled from the spec: normal-convergence merge loop (§4.3 step 2):
for every valid chrome account not present in `gaia`, issue a merge action. -/
def mergeActions (gaia : List Account) : List Account → List Action
  | [] => []
  | a :: rest =>
      (if a ∈ gaia then [] else [Action.merge a]) ++ mergeActions gaia rest

/-- Modelled from the spec: normal-convergence add-to-chrome loop (§4.3
step 2): for every gaia account not present in the valid chrome-account
set, issue an add-to-chrome action carrying the account identifier and its
position (session index) in the ordered gaia list.  `i` is the index of the
head of the remaining list. -/
def addToChromeActions (valid : List Account) : Nat → List Account → List Action
  | _, [] => []
  | i, g :: rest =>
      (if g ∈ valid then [] else [Action.addToChrome g i]) ++
        addToChromeActions valid (i + 1) rest

/-- Modelled from the spec: bad-primary rebuild loop (§4.3 step 1): merge
every valid chrome account other than the primary (the primary is merged
first, separately). -/
def rebuildMergeActions (primary : Account) : List Account → List Action
  | [] => []
  | a :: rest =>
      (if a = primary then [] else [Action.merge a]) ++
        rebuildMergeActions primary rest

/-- Modelled from the spec: the diff algorithm (§4.3).  Bad-primary
recovery (logout-all, merge primary, merge every other valid chrome
account) takes priority over and short-circuits normal convergence. -/
def computeDiff (primary : Account) (gaia valid : List Account) : List Action :=
  if badPrimary primary gaia then
    Action.logoutAll :: Action.merge primary :: rebuildMergeActions primary valid
  else
    mergeActions gaia valid ++ addToChromeActions valid 0 gaia

/-- Modelled from the spec: the join barrier (§4.3): the diff/action
computation runs exactly once, from whichever fetch-completion callback
observes both readiness flags true; it then clears `RECONCILING` back to
`IDLE` (the single-flight flag).  Returns the new state and the issued
executor actions. -/
def finishReconcileIfDone (r : AccountReconcilor) :
    AccountReconcilor × List Action :=
  if r.are_gaia_accounts_set && r.areAllRefreshTokensChecked then
    ({ r with is_reconcile_started := false },
      computeDiff r.primaryAccount r.gaia_accounts r.valid_chrome_accounts)
  else
    (r, [])

/-- Modelled from the spec: `ValidateAccountsFromTokenService()` (§4.2):
records the set of accounts currently known to the Token Service as the
pending set and starts with empty valid/invalid classifications. -/
def validateAccountsFromTokenService (tokenAccounts : List Account)
    (r : AccountReconcilor) : AccountReconcilor :=
  { r with chrome_accounts := tokenAccounts,
           valid_chrome_accounts := [],
           invalid_chrome_accounts := [] }

/-- Modelled from the spec: `StartReconcile()` (§4.3): no-op while a pass
is already in flight (single-flight guard); otherwise transitions to
`RECONCILING`, resets the `ReconcileState` and triggers both fetches (the
token-service pending set is recorded here). -/
def startReconcile (tokenAccounts : List Account)
    (r : AccountReconcilor) : AccountReconcilor :=
  if r.is_reconcile_started then r
  else
    validateAccountsFromTokenService tokenAccounts
      { r with is_reconcile_started := true,
               are_gaia_accounts_set := false,
               gaia_accounts := [] }

/-- Modelled from the spec: the Session Account Fetcher completion
callback (§4.1): on success, stores the ordered gaia-account list and sets
the readiness flag, then checks the join barrier; on transport or parse
failure, reports an empty list and marks the fetch failed (the readiness
flag stays false, so the diff never runs for this pass) and issues no
actions. -/
def handleListAccounts (success : Bool) (accounts : List Account)
    (r : AccountReconcilor) : AccountReconcilor × List Action :=
  if success then
    finishReconcileIfDone
      { r with are_gaia_accounts_set := true, gaia_accounts := accounts }
  else
    ({ r with are_gaia_accounts_set := false, gaia_accounts := [] }, [])

/-- Modelled from the spec: outcome of validating one account (§4.2): the
access-token mint may fail with an auth error; on mint success the
user-info call may return a non-OK response. -/
structure TokenValidationOutcome where
  mintOk : Bool
  userInfoOk : Bool
deriving DecidableEq, Repr

/-- Modelled from the spec: an account is classified valid if both the
token mint and the user-info call succeed; invalid on either failure
(§4.2). -/
def outcomeValid (o : TokenValidationOutcome) : Bool :=
  o.mintOk && o.userInfoOk

/-- Modelled from the spec: the Token Validator per-account completion
callback (§4.2): classifies a still-pending, not-yet-classified account as
valid or invalid and then checks the join barrier; results for accounts no
longer pending (removed mid-validation) or already classified are
discarded. -/
def handleTokenValidated (account : Account) (o : TokenValidationOutcome)
    (r : AccountReconcilor) : AccountReconcilor × List Action :=
  if decide (account ∈ r.chrome_accounts) &&
      !(decide (account ∈ r.valid_chrome_accounts) ||
        decide (account ∈ r.invalid_chrome_accounts)) then
    finishReconcileIfDone
      (if outcomeValid o then
        { r with valid_chrome_accounts :=
            r.valid_chrome_accounts ++ [account] }
      else
        { r with invalid_chrome_accounts :=
            r.invalid_chrome_accounts ++ [account] })
  else
    (r, [])

/-- Modelled from the spec: sign-in completion (§4.5): registers the
engine with the Token Service and starts periodic reconciliation;
re-authentication of the already signed-in primary account is a no-op with
respect to state. -/
def handleSigninCompleted (account : Account)
    (r : AccountReconcilor) : AccountReconcilor :=
  if r.signedInAccount = some account then r
  else
    { r with signedInAccount := some account,
             registeredWithTokenService := true,
             periodicReconciliationRunning := true,
             periodicStartCount := r.periodicStartCount + 1 }

/-- Modelled from the spec: sign-out (§4.5): unregisters from the Token
Service and stops the periodic timer. -/
def handleSignOut (r : AccountReconcilor) : AccountReconcilor :=
  { r with signedInAccount := none,
           registeredWithTokenService := false,
           periodicReconciliationRunning := false }

/-- Modelled from the spec: construction of the reconcilor (§3
"Lifecycle"): created on profile construction; when the profile already
has an authenticated primary account, the sign-in path runs immediately. -/
def mkAccountReconcilor (signedInAccount : Option Account) : AccountReconcilor :=
  let base : AccountReconcilor :=
    { signedInAccount := none,
      registeredWithTokenService := false,
      periodicReconciliationRunning := false,
      periodicStartCount := 0,
      is_reconcile_started := false,
      are_gaia_accounts_set := false,
      gaia_accounts := [],
      chrome_accounts := [],
      valid_chrome_accounts := [],
      invalid_chrome_accounts := [] }
  match signedInAccount with
  | some account => handleSigninCompleted account base
  | none => base

/-- Concrete engine state: a reconciliation pass in flight for a profile
signed in as `user@gmail.com` whose Token Service knows that one account
(the setup of the `StartReconcileOnlyOnce` unit test). -/
def sampleInFlight : AccountReconcilor :=
  startReconcile ["user@gmail.com"]
    (mkAccountReconcilor (some "user@gmail.com"))

/-- Concrete engine state: the same pass with both readiness flags
satisfied (gaia accounts fetched and the one pending account classified
valid), so the join barrier is open. -/
def sampleReady : AccountReconcilor :=
  { sampleInFlight with
      are_gaia_accounts_set := true,
      gaia_accounts := ["user@gmail.com"],
      valid_chrome_accounts := ["user@gmail.com"] }

/-- Concrete validation flow of the `StartReconcileNoopMultiple` unit
test: validation starts with two pending token-service accounts. -/
def twoAccountStartState : AccountReconcilor :=
  validateAccountsFromTokenService ["user@gmail.com", "other@gmail.com"]
    (mkAccountReconcilor (some "user@gmail.com"))

/-- The same flow after only `other@gmail.com` has been classified. -/
def twoAccountPartialState : AccountReconcilor :=
  (handleTokenValidated "other@gmail.com" ⟨true, true⟩ twoAccountStartState).1

/-- The same flow after both pending accounts have been classified. -/
def twoAccountFullState : AccountReconcilor :=
  (handleTokenValidated "user@gmail.com" ⟨true, true⟩ twoAccountPartialState).1

/-! ### Helper lemmas about the diff loops -/

lemma mem_mergeActions {gaia valid : List Account} {act : Action} :
    act ∈ mergeActions gaia valid ↔
      ∃ a, a ∈ valid ∧ a ∉ gaia ∧ act = Action.merge a := by
  induction valid with
  | nil => simp [mergeActions]
  | cons b rest ih =>
      by_cases hb : b ∈ gaia <;> simp [mergeActions, hb, ih]

lemma count_mergeActions (gaia valid : List Account) (a : Account) :
    (mergeActions gaia valid).count (Action.merge a) =
      if a ∈ gaia then 0 else valid.count a := by
  induction valid with
  | nil => simp [mergeActions]
  | cons b rest ih =>
      simp only [mergeActions, List.count_append, ih, List.count_cons]
      by_cases hb : b ∈ gaia <;> by_cases hab : a ∈ gaia <;>
        by_cases hba : b = a <;>
        simp_all [List.count_cons] <;> omega

lemma mem_rebuildMergeActions {primary : Account} {valid : List Account}
    {act : Action} :
    act ∈ rebuildMergeActions primary valid ↔
      ∃ a, a ∈ valid ∧ a ≠ primary ∧ act = Action.merge a := by
  induction valid with
  | nil => simp [rebuildMergeActions]
  | cons b rest ih =>
      by_cases hb : b = primary <;> simp [rebuildMergeActions, hb, ih]

lemma count_rebuildMergeActions (primary : Account) (valid : List Account)
    (a : Account) :
    (rebuildMergeActions primary valid).count (Action.merge a) =
      if a = primary then 0 else valid.count a := by
  induction valid with
  | nil => simp [rebuildMergeActions]
  | cons b rest ih =>
      simp only [rebuildMergeActions, List.count_append, ih]
      by_cases hb : b = primary <;> by_cases hap : a = primary <;>
        by_cases hba : b = a <;>
        simp_all [List.count_cons] <;> omega

lemma mem_addToChromeActions {valid : List Account} {act : Action} :
    ∀ {i : Nat} {gaia : List Account},
    act ∈ addToChromeActions valid i gaia ↔
      ∃ j, ∃ h : j < gaia.length,
        gaia.get ⟨j, h⟩ ∉ valid ∧
          act = Action.addToChrome (gaia.get ⟨j, h⟩) (i + j) := by
  intro i gaia
  induction gaia generalizing i with
  | nil => simp [addToChromeActions]
  | cons g rest ih =>
      constructor
      · intro hmem
        rcases List.mem_append.mp hmem with hhead | htail
        · by_cases hg : g ∈ valid
          · simp [hg] at hhead
          · simp only [hg, if_neg, List.mem_singleton] at hhead
            refine ⟨0, Nat.succ_pos _, ?_, ?_⟩
            · simpa using hg
            · simpa using hhead
        · rcases ih.mp htail with ⟨j, hj, hnv, hact⟩
          refine ⟨j + 1, Nat.succ_lt_succ hj, ?_, ?_⟩
          · simpa using hnv
          · simpa [Nat.add_comm, Nat.add_assoc, Nat.add_left_comm] using hact
      · rintro ⟨j, hj, hnv, hact⟩
        cases j with
        | zero =>
            apply List.mem_append.mpr
            left
            simp only [List.get] at hnv hact
            simp [hnv, hact]
        | succ j =>
            apply List.mem_append.mpr
            right
            apply ih.mpr
            refine ⟨j, Nat.lt_of_succ_lt_succ hj, ?_, ?_⟩
            · simpa using hnv
            · simpa [Nat.add_comm, Nat.add_assoc, Nat.add_left_comm] using hact

lemma count_addToChromeActions {valid : List Account} :
    ∀ (i j : Nat) (gaia : List Account) (h : j < gaia.length),
      gaia.get ⟨j, h⟩ ∉ valid →
      (addToChromeActions valid i gaia).count
          (Action.addToChrome (gaia.get ⟨j, h⟩) (i + j)) = 1 := by
  intro i j gaia
  induction gaia generalizing i j with
  | nil => intro h; exact absurd h (Nat.not_lt_zero j)
  | cons g rest ih =>
      intro h hnv
      cases j with
      | zero =>
          simp only [List.get] at hnv ⊢
          have htail :
              (addToChromeActions valid (i + 1) rest).count
                (Action.addToChrome g i) = 0 := by
            apply List.count_eq_zero_of_not_mem
            intro hmem
            rcases mem_addToChromeActions.mp hmem with ⟨j, hj, _, hact⟩
            have : i = i + 1 + j := by
              have := congrArg (fun act =>
                match act with
                | Action.addToChrome _ k => k
                | _ => 0) hact
              simpa using this
            omega
          simp [addToChromeActions, hnv, List.count_append, htail]
      | succ j =>
          simp only [List.get] at hnv ⊢
          have hrec := ih (i + 1) j (Nat.lt_of_succ_lt_succ h) hnv
          have hidx : i + 1 + j = i + (j + 1) := by omega
          rw [hidx] at hrec
          have hhead :
              ((if g ∈ valid then [] else
                  [Action.addToChrome g i]) : List Action).count
                (Action.addToChrome (rest.get ⟨j, Nat.lt_of_succ_lt_succ h⟩)
                  (i + (j + 1))) = 0 := by
            by_cases hg : g ∈ valid
            · simp [hg]
            · simp only [hg, if_neg]
              apply List.count_eq_zero_of_not_mem
              intro hmem
              have := List.mem_singleton.mp hmem
              have : i + (j + 1) = i := by
                have := congrArg (fun act =>
                  match act with
                  | Action.addToChrome _ k => k
                  | _ => 0) this
                simpa using this
              omega
          simp only [addToChromeActions, List.count_append, hhead, hrec]

lemma logoutAll_not_mem_rebuild {primary : Account} {valid : List Account} :
    Action.logoutAll ∉ rebuildMergeActions primary valid := by
  intro hm
  rcases mem_rebuildMergeActions.mp hm with ⟨a, _, _, hact⟩
  exact absurd hact (by simp)

lemma merge_not_mem_addToChromeActions {valid gaia : List Account}
    {i : Nat} {a : Account} :
    Action.merge a ∉ addToChromeActions valid i gaia := by
  intro hm
  rcases mem_addToChromeActions.mp hm with ⟨j, hj, _, hact⟩
  exact absurd hact (by simp)

lemma addToChrome_not_mem_mergeActions {gaia valid : List Account}
    {g : Account} {j : Nat} :
    Action.addToChrome g j ∉ mergeActions gaia valid := by
  intro hm
  rcases mem_mergeActions.mp hm with ⟨a, _, _, hact⟩
  exact absurd hact (by simp)

/-! ### Claim theorems -/

/-- C2: Bad-primary recovery — when the fetched gaia list is non-empty and
its first element differs from the primary account, the diff is exactly
one logout-all followed by exactly one merge per valid chrome account (the
primary included), with no other actions; this path short-circuits the
normal convergence comparisons (the produced action list is exactly the
recovery sequence). -/
theorem bad_primary_recovery (primary : Account) (gaia valid : List Account)
    (hbad : badPrimary primary gaia = true) (hvnd : valid.Nodup)
    (hp : primary ∈ valid) :
    computeDiff primary gaia valid =
      Action.logoutAll :: Action.merge primary ::
        rebuildMergeActions primary valid ∧
    (computeDiff primary gaia valid).count Action.logoutAll = 1 ∧
    (∀ a ∈ valid,
        (computeDiff primary gaia valid).count (Action.merge a) = 1) ∧
    (∀ act ∈ computeDiff primary gaia valid,
        act = Action.logoutAll ∨ ∃ a, a ∈ valid ∧ act = Action.merge a) := by
  have hdiff : computeDiff primary gaia valid =
      Action.logoutAll :: Action.merge primary ::
        rebuildMergeActions primary valid := by
    simp [computeDiff, hbad]
  refine ⟨hdiff, ?_, ?_, ?_⟩
  · rw [hdiff]
    have h0 : (rebuildMergeActions primary valid).count Action.logoutAll = 0 :=
      List.count_eq_zero_of_not_mem logoutAll_not_mem_rebuild
    simp [List.count_cons, h0]
  · intro a ha
    rw [hdiff]
    by_cases hap : a = primary
    · subst hap
      have h0 : (rebuildMergeActions a valid).count (Action.merge a) = 0 := by
        rw [count_rebuildMergeActions]
        simp
      simp [List.count_cons, h0]
    · have h1 : (rebuildMergeActions primary valid).count (Action.merge a) = 1 := by
        rw [count_rebuildMergeActions]
        simp [hap, List.count_eq_one_of_mem hvnd ha]
      simp [List.count_cons, h1, hap, Ne.symm hap]
  · intro act hact
    rw [hdiff] at hact
    rcases List.mem_cons.mp hact with h | hact
    · exact Or.inl h
    rcases List.mem_cons.mp hact with h | hact
    · exact Or.inr ⟨primary, hp, h⟩
    rcases mem_rebuildMergeActions.mp hact with ⟨a, ha, _, hacteq⟩
    exact Or.inr ⟨a, ha, hacteq⟩

/-- C2 witness: scenario D of the spec — primary `user@gmail.com`, gaia
session `[other, user]`, both accounts valid: one logout-all, then a merge
of the primary, then a merge of the other valid account. -/
theorem bad_primary_recovery_witness :
    computeDiff "user@gmail.com" ["other@gmail.com", "user@gmail.com"]
        ["user@gmail.com", "other@gmail.com"] =
      Action.logoutAll :: Action.merge "user@gmail.com" ::
        rebuildMergeActions "user@gmail.com"
          ["user@gmail.com", "other@gmail.com"] :=
  (bad_primary_recovery "user@gmail.com"
    ["other@gmail.com", "user@gmail.com"]
    ["user@gmail.com", "other@gmail.com"]
    (by decide) (by decide) (by decide)).1

/-- C3: Normal convergence diff — with no bad-primary condition, the diff
issues exactly one merge for each valid chrome account absent from the
gaia list, exactly one add-to-chrome carrying the account and its session
index for each gaia account absent from the valid set, and nothing else. -/
theorem normal_convergence_diff (primary : Account) (gaia valid : List Account)
    (hgood : badPrimary primary gaia = false) (hvnd : valid.Nodup) :
    (∀ a ∈ valid, a ∉ gaia →
        (computeDiff primary gaia valid).count (Action.merge a) = 1) ∧
    (∀ j, ∀ h : j < gaia.length, gaia.get ⟨j, h⟩ ∉ valid →
        (computeDiff primary gaia valid).count
            (Action.addToChrome (gaia.get ⟨j, h⟩) j) = 1) ∧
    (∀ act ∈ computeDiff primary gaia valid,
        (∃ a, a ∈ valid ∧ a ∉ gaia ∧ act = Action.merge a) ∨
        (∃ j, ∃ h : j < gaia.length, gaia.get ⟨j, h⟩ ∉ valid ∧
            act = Action.addToChrome (gaia.get ⟨j, h⟩) j)) := by
  have hdiff : computeDiff primary gaia valid =
      mergeActions gaia valid ++ addToChromeActions valid 0 gaia := by
    simp [computeDiff, hgood]
  refine ⟨?_, ?_, ?_⟩
  · intro a ha hag
    rw [hdiff, List.count_append, count_mergeActions]
    have h0 : (addToChromeActions valid 0 gaia).count (Action.merge a) = 0 :=
      List.count_eq_zero_of_not_mem merge_not_mem_addToChromeActions
    simp [hag, List.count_eq_one_of_mem hvnd ha, h0]
  · intro j hj hnv
    rw [hdiff, List.count_append]
    have h0 : (mergeActions gaia valid).count
        (Action.addToChrome (gaia.get ⟨j, hj⟩) j) = 0 :=
      List.count_eq_zero_of_not_mem addToChrome_not_mem_mergeActions
    have h1 := count_addToChromeActions 0 j gaia hj hnv
    rw [Nat.zero_add] at h1
    rw [h0, h1]
  · intro act hact
    rw [hdiff] at hact
    rcases List.mem_append.mp hact with h | h
    · exact Or.inl (mem_mergeActions.mp h)
    · rcases mem_addToChromeActions.mp h with ⟨j, hj, hnv, hacteq⟩
      exact Or.inr ⟨j, hj, hnv, by simpa using hacteq⟩

/-- C3 witness: scenario C of the spec — token service has `user`, gaia
session lists `[user, other]`: exactly one add-to-chrome for `other` at
session index 1. -/
theorem normal_convergence_diff_witness :
    (computeDiff "user@gmail.com" ["user@gmail.com", "other@gmail.com"]
        ["user@gmail.com"]).count (Action.addToChrome "other@gmail.com" 1) = 1 := by
  have h := (normal_convergence_diff "user@gmail.com"
    ["user@gmail.com", "other@gmail.com"] ["user@gmail.com"]
    (by decide) (by decide)).2.1 1 (by decide) (by decide)
  simpa using h

/-- C4: Idempotence of a converged state — when the gaia accounts and the
valid chrome accounts are equal as sets and the primary account is first
in the gaia list (or the list is empty), the diff issues no actions at
all. -/
theorem converged_noop (primary : Account) (gaia valid : List Account)
    (hset : ∀ a, a ∈ gaia ↔ a ∈ valid)
    (hfirst : gaia.head? = some primary ∨ gaia = []) :
    computeDiff primary gaia valid = [] := by
  have hgood : badPrimary primary gaia = false := by
    cases gaia with
    | nil => rfl
    | cons g rest =>
        rcases hfirst with hh | hh
        · simp only [List.head?] at hh
          simp [badPrimary, Option.some_inj.mp hh]
        · exact absurd hh (by simp)
  have hm : mergeActions gaia valid = [] := by
    rw [List.eq_nil_iff_forall_not_mem]
    intro act hmem
    rcases mem_mergeActions.mp hmem with ⟨a, ha, hag, _⟩
    exact hag ((hset a).mpr ha)
  have hac : addToChromeActions valid 0 gaia = [] := by
    rw [List.eq_nil_iff_forall_not_mem]
    intro act hmem
    rcases mem_addToChromeActions.mp hmem with ⟨j, hj, hnv, _⟩
    exact hnv ((hset _).mp (gaia.get_mem _ _))
  simp [computeDiff, hgood, hm, hac]

/-- C4 witness: scenario A of the spec — primary `user@gmail.com`, the
only token-service account, gaia session `[user@gmail.com]`: zero
actions. -/
theorem converged_noop_witness :
    computeDiff "user@gmail.com" ["user@gmail.com"] ["user@gmail.com"] = [] :=
  converged_noop "user@gmail.com" ["user@gmail.com"] ["user@gmail.com"]
    (fun _ => Iff.rfl) (Or.inl rfl)

lemma finish_preserves (x : AccountReconcilor) :
    (finishReconcileIfDone x).1.valid_chrome_accounts =
        x.valid_chrome_accounts ∧
    (finishReconcileIfDone x).1.invalid_chrome_accounts =
        x.invalid_chrome_accounts ∧
    (finishReconcileIfDone x).1.chrome_accounts = x.chrome_accounts ∧
    (finishReconcileIfDone x).1.are_gaia_accounts_set =
        x.are_gaia_accounts_set ∧
    (finishReconcileIfDone x).1.gaia_accounts = x.gaia_accounts := by
  unfold finishReconcileIfDone
  split <;> simp

lemma finish_of_gaia_unset {x : AccountReconcilor}
    (hx : x.are_gaia_accounts_set = false) :
    finishReconcileIfDone x = (x, []) := by
  simp [finishReconcileIfDone, hx]

/-- C1: Single-flight invariant — calling `StartReconcile` while a pass is
in flight is a no-op (the entire state, including the in-flight pass's
progress, is unchanged); starting a pass sets `is_reconcile_started`; a
fetch-completion check that does not find both readiness flags true leaves
the state (hence the flag) untouched and issues nothing; once the join
barrier opens and the diff executes the flag is cleared to false. -/
theorem single_flight (tokenAccounts : List Account)
    (r s : AccountReconcilor) :
    (r.is_reconcile_started = true →
        startReconcile tokenAccounts r = r) ∧
    (r.is_reconcile_started = false →
        (startReconcile tokenAccounts r).is_reconcile_started = true) ∧
    ((s.are_gaia_accounts_set && s.areAllRefreshTokensChecked) = false →
        finishReconcileIfDone s = (s, [])) ∧
    ((s.are_gaia_accounts_set && s.areAllRefreshTokensChecked) = true →
        (finishReconcileIfDone s).1.is_reconcile_started = false) := by
  refine ⟨?_, ?_, ?_, ?_⟩
  · intro h
    simp [startReconcile, h]
  · intro h
    simp [startReconcile, h, validateAccountsFromTokenService]
  · intro h
    simp [finishReconcileIfDone, h]
  · intro h
    simp [finishReconcileIfDone, h]

/-- C1 witness: with a pass in flight, `StartReconcile` changes nothing;
starting from idle sets the flag; an unsatisfied join barrier leaves the
state alone; a satisfied one clears the flag. -/
theorem single_flight_witness :
    startReconcile ["user@gmail.com"] sampleInFlight = sampleInFlight ∧
    (startReconcile ["user@gmail.com"]
        (mkAccountReconcilor (some "user@gmail.com"))).is_reconcile_started =
      true ∧
    finishReconcileIfDone (mkAccountReconcilor (some "user@gmail.com")) =
      (mkAccountReconcilor (some "user@gmail.com"), []) ∧
    (finishReconcileIfDone sampleReady).1.is_reconcile_started = false :=
  ⟨(single_flight ["user@gmail.com"] sampleInFlight sampleReady).1
      (by decide),
   (single_flight ["user@gmail.com"]
      (mkAccountReconcilor (some "user@gmail.com")) sampleReady).2.1
      (by decide),
   (single_flight ["user@gmail.com"] sampleInFlight
      (mkAccountReconcilor (some "user@gmail.com"))).2.2.1 (by decide),
   (single_flight ["user@gmail.com"] sampleInFlight sampleReady).2.2.2
      (by decide)⟩

/-- C5: Token validation classification — a pending, not-yet-classified
account is classified valid exactly when both the access-token mint and
the user-info call succeed, invalid on either failure; it lands in exactly
one of the two sets, the sets stay disjoint, and the pass is not aborted
(the pending set and the gaia readiness flag are untouched). -/
theorem token_validation_classification (account : Account)
    (o : TokenValidationOutcome) (r : AccountReconcilor)
    (hpend : account ∈ r.chrome_accounts)
    (hnv : account ∉ r.valid_chrome_accounts)
    (hni : account ∉ r.invalid_chrome_accounts)
    (hdisj : ∀ a, ¬(a ∈ r.valid_chrome_accounts ∧
        a ∈ r.invalid_chrome_accounts)) :
    (account ∈ (handleTokenValidated account o r).1.valid_chrome_accounts ↔
        (o.mintOk = true ∧ o.userInfoOk = true)) ∧
    (account ∈ (handleTokenValidated account o r).1.invalid_chrome_accounts ↔
        ¬(o.mintOk = true ∧ o.userInfoOk = true)) ∧
    (∀ a, ¬(a ∈ (handleTokenValidated account o r).1.valid_chrome_accounts ∧
        a ∈ (handleTokenValidated account o r).1.invalid_chrome_accounts)) ∧
    (handleTokenValidated account o r).1.chrome_accounts =
      r.chrome_accounts ∧
    (handleTokenValidated account o r).1.are_gaia_accounts_set =
      r.are_gaia_accounts_set := by
  have hguard : (decide (account ∈ r.chrome_accounts) &&
      !(decide (account ∈ r.valid_chrome_accounts) ||
        decide (account ∈ r.invalid_chrome_accounts))) = true := by
    simp [hpend, hnv, hni]
  by_cases hval : outcomeValid o = true
  · have hmint : o.mintOk = true ∧ o.userInfoOk = true := by
      simpa [outcomeValid, Bool.and_eq_true] using hval
    have hstep : handleTokenValidated account o r =
        finishReconcileIfDone
          { r with valid_chrome_accounts :=
              r.valid_chrome_accounts ++ [account] } := by
      simp [handleTokenValidated, hguard, hval]
      intro h1
      exact absurd (h1 hpend hnv) hni
    obtain ⟨hv, hi, hc, hg, _⟩ := finish_preserves
      { r with valid_chrome_accounts :=
          r.valid_chrome_accounts ++ [account] }
    rw [hstep]
    refine ⟨?_, ?_, ?_, hc, hg⟩
    · rw [hv]; simp [hmint]
    · rw [hi]; simp [hni, hmint]
    · intro a
      rw [hv, hi]
      rintro ⟨hav, hai⟩
      rcases List.mem_append.mp hav with hav | hav
      · exact hdisj a ⟨hav, hai⟩
      · rw [List.mem_singleton.mp hav] at hai
        exact hni hai
  · have hmint : ¬(o.mintOk = true ∧ o.userInfoOk = true) := by
      intro hcontra
      exact hval (by simp [outcomeValid, hcontra.1, hcontra.2])
    have hstep : handleTokenValidated account o r =
        finishReconcileIfDone
          { r with invalid_chrome_accounts :=
              r.invalid_chrome_accounts ++ [account] } := by
      simp [handleTokenValidated, hguard, hval]
      intro h1
      exact absurd (h1 hpend hnv) hni
    obtain ⟨hv, hi, hc, hg, _⟩ := finish_preserves
      { r with invalid_chrome_accounts :=
          r.invalid_chrome_accounts ++ [account] }
    rw [hstep]
    refine ⟨?_, ?_, ?_, hc, hg⟩
    · rw [hv]; simp [hnv, hmint]
    · rw [hi]; simp [hmint]
    · intro a
      rw [hv, hi]
      rintro ⟨hav, hai⟩
      rcases List.mem_append.mp hai with hai | hai
      · exact hdisj a ⟨hav, hai⟩
      · rw [List.mem_singleton.mp hai] at hav
        exact hnv hav

/-- C5 witness: scenario E of the spec — the user-info endpoint fails for
the single pending account, so it lands in the invalid set, not the valid
one, and the pending set is retained. -/
theorem token_validation_classification_witness :
    ("user@gmail.com" ∈ (handleTokenValidated "user@gmail.com"
        ⟨true, false⟩ twoAccountStartState).1.valid_chrome_accounts ↔
      ((true : Bool) = true ∧ (false : Bool) = true)) ∧
    ("user@gmail.com" ∈ (handleTokenValidated "user@gmail.com"
        ⟨true, false⟩ twoAccountStartState).1.invalid_chrome_accounts ↔
      ¬((true : Bool) = true ∧ (false : Bool) = true)) ∧
    (∀ a, ¬(a ∈ (handleTokenValidated "user@gmail.com"
        ⟨true, false⟩ twoAccountStartState).1.valid_chrome_accounts ∧
      a ∈ (handleTokenValidated "user@gmail.com"
        ⟨true, false⟩ twoAccountStartState).1.invalid_chrome_accounts)) ∧
    (handleTokenValidated "user@gmail.com"
        ⟨true, false⟩ twoAccountStartState).1.chrome_accounts =
      twoAccountStartState.chrome_accounts ∧
    (handleTokenValidated "user@gmail.com"
        ⟨true, false⟩ twoAccountStartState).1.are_gaia_accounts_set =
      twoAccountStartState.are_gaia_accounts_set :=
  token_validation_classification "user@gmail.com" ⟨true, false⟩
    twoAccountStartState (by decide) (by decide) (by decide)
    (by intro a h; simp [twoAccountStartState,
      validateAccountsFromTokenService] at h)

/-- C6: Session-fetch failure semantics — a failed account-listing fetch
reports an empty gaia list with the readiness flag false and issues no
actions, leaving the committed engine state unchanged; and while the gaia
readiness flag is false the join barrier never opens, so neither a direct
barrier check nor a token-validation completion can run the diff or issue
actions. -/
theorem session_fetch_failure (accounts : List Account)
    (r : AccountReconcilor) (a : Account) (o : TokenValidationOutcome)
    (s : AccountReconcilor) (hs : s.are_gaia_accounts_set = false) :
    (handleListAccounts false accounts r).1.are_gaia_accounts_set = false ∧
    (handleListAccounts false accounts r).1.gaia_accounts = [] ∧
    (handleListAccounts false accounts r).2 = [] ∧
    (handleListAccounts false accounts r).1.is_reconcile_started =
      r.is_reconcile_started ∧
    (handleListAccounts false accounts r).1.valid_chrome_accounts =
      r.valid_chrome_accounts ∧
    (handleListAccounts false accounts r).1.invalid_chrome_accounts =
      r.invalid_chrome_accounts ∧
    finishReconcileIfDone s = (s, []) ∧
    (handleTokenValidated a o s).1.are_gaia_accounts_set = false ∧
    (handleTokenValidated a o s).2 = [] := by
  refine ⟨by simp [handleListAccounts], by simp [handleListAccounts],
    by simp [handleListAccounts], by simp [handleListAccounts],
    by simp [handleListAccounts], by simp [handleListAccounts],
    finish_of_gaia_unset hs, ?_, ?_⟩
  · unfold handleTokenValidated
    split
    · split
      · rw [finish_of_gaia_unset (by simpa using hs)]
        simpa using hs
      · rw [finish_of_gaia_unset (by simpa using hs)]
        simpa using hs
    · exact hs
  · unfold handleTokenValidated
    split
    · split
      · rw [finish_of_gaia_unset (by simpa using hs)]
      · rw [finish_of_gaia_unset (by simpa using hs)]
    · rfl

/-- C6 witness: the `GetAccountsFromCookieFailure` setup — a pass in
flight whose listing fetch fails: flag false, empty list, no actions, and
a later token classification still cannot open the barrier. -/
theorem session_fetch_failure_witness :
    (handleListAccounts false [] sampleInFlight).1.are_gaia_accounts_set =
      false ∧
    (handleListAccounts false [] sampleInFlight).1.gaia_accounts = [] ∧
    (handleListAccounts false [] sampleInFlight).2 = [] ∧
    (handleListAccounts false [] sampleInFlight).1.is_reconcile_started =
      sampleInFlight.is_reconcile_started ∧
    (handleListAccounts false [] sampleInFlight).1.valid_chrome_accounts =
      sampleInFlight.valid_chrome_accounts ∧
    (handleListAccounts false [] sampleInFlight).1.invalid_chrome_accounts =
      sampleInFlight.invalid_chrome_accounts ∧
    finishReconcileIfDone sampleInFlight = (sampleInFlight, []) ∧
    (handleTokenValidated "user@gmail.com" ⟨true, true⟩
        sampleInFlight).1.are_gaia_accounts_set = false ∧
    (handleTokenValidated "user@gmail.com" ⟨true, true⟩
        sampleInFlight).2 = [] :=
  session_fetch_failure [] sampleInFlight "user@gmail.com" ⟨true, true⟩
    sampleInFlight (by decide)

/-- C7: Validation completion detection — `AreAllRefreshTokensChecked` is
true exactly when every account pending at validation start has been
classified valid or invalid; concretely, with the two pending accounts of
the `StartReconcileNoopMultiple` flow, classifying only one leaves it
false and classifying both makes it true. -/
theorem refresh_tokens_checked_iff (r : AccountReconcilor) :
    (r.areAllRefreshTokensChecked = true ↔
      ∀ a ∈ r.chrome_accounts,
        a ∈ r.valid_chrome_accounts ∨ a ∈ r.invalid_chrome_accounts) ∧
    twoAccountStartState.areAllRefreshTokensChecked = false ∧
    twoAccountPartialState.areAllRefreshTokensChecked = false ∧
    twoAccountFullState.areAllRefreshTokensChecked = true := by
  refine ⟨?_, by decide, by decide, by decide⟩
  simp [AccountReconcilor.areAllRefreshTokensChecked, List.all_eq_true]

/-- C8: Lifecycle toggle — a sign-in completion on a signed-out profile
starts periodic reconciliation and registers with the Token Service; a
subsequent sign-out stops and unregisters both. -/
theorem lifecycle_toggle (account : Account) (r : AccountReconcilor)
    (h : r.signedInAccount = none) :
    (handleSigninCompleted account r).IsPeriodicReconciliationRunning =
      true ∧
    (handleSigninCompleted account r).IsRegisteredWithTokenService = true ∧
    (handleSignOut
        (handleSigninCompleted account r)).IsPeriodicReconciliationRunning =
      false ∧
    (handleSignOut
        (handleSigninCompleted account r)).IsRegisteredWithTokenService =
      false := by
  simp [handleSigninCompleted, handleSignOut, h,
    AccountReconcilor.IsPeriodicReconciliationRunning,
    AccountReconcilor.IsRegisteredWithTokenService]

/-- C8 witness: the `SigninManagerRegistration` unit test flow on a fresh,
signed-out reconcilor. -/
theorem lifecycle_toggle_witness :
    (handleSigninCompleted "user@gmail.com"
        (mkAccountReconcilor none)).IsPeriodicReconciliationRunning =
      true ∧
    (handleSigninCompleted "user@gmail.com"
        (mkAccountReconcilor none)).IsRegisteredWithTokenService = true ∧
    (handleSignOut (handleSigninCompleted "user@gmail.com"
        (mkAccountReconcilor none))).IsPeriodicReconciliationRunning =
      false ∧
    (handleSignOut (handleSigninCompleted "user@gmail.com"
        (mkAccountReconcilor none))).IsRegisteredWithTokenService =
      false :=
  lifecycle_toggle "user@gmail.com" (mkAccountReconcilor none) (by decide)

/-- C9: Re-authentication frame property — delivering a sign-in completion
for the account the profile is already signed in with changes nothing: the
whole engine state is unchanged, so the two lifecycle observers keep their
values and the periodic-start counter does not move (periodic
reconciliation is neither restarted nor duplicated). -/
theorem reauth_noop (account : Account) (r : AccountReconcilor)
    (h : r.signedInAccount = some account) :
    handleSigninCompleted account r = r ∧
    (handleSigninCompleted account r).IsPeriodicReconciliationRunning =
      r.IsPeriodicReconciliationRunning ∧
    (handleSigninCompleted account r).IsRegisteredWithTokenService =
      r.IsRegisteredWithTokenService ∧
    (handleSigninCompleted account r).periodicStartCount =
      r.periodicStartCount := by
  have he : handleSigninCompleted account r = r := by
    simp [handleSigninCompleted, h]
  exact ⟨he, by rw [he], by rw [he], by rw [he]⟩

/-- C9 witness: the `Reauth` unit test flow — re-signing-in the already
authenticated `user@gmail.com` leaves the reconcilor untouched. -/
theorem reauth_noop_witness :
    handleSigninCompleted "user@gmail.com"
        (mkAccountReconcilor (some "user@gmail.com")) =
      mkAccountReconcilor (some "user@gmail.com") ∧
    (handleSigninCompleted "user@gmail.com"
        (mkAccountReconcilor
          (some "user@gmail.com"))).IsPeriodicReconciliationRunning =
      (mkAccountReconcilor
          (some "user@gmail.com")).IsPeriodicReconciliationRunning ∧
    (handleSigninCompleted "user@gmail.com"
        (mkAccountReconcilor
          (some "user@gmail.com"))).IsRegisteredWithTokenService =
      (mkAccountReconcilor
          (some "user@gmail.com")).IsRegisteredWithTokenService ∧
    (handleSigninCompleted "user@gmail.com"
        (mkAccountReconcilor (some "user@gmail.com"))).periodicStartCount =
      (mkAccountReconcilor (some "user@gmail.com")).periodicStartCount :=
  reauth_noop "user@gmail.com" (mkAccountReconcilor (some "user@gmail.com"))
    (by decide)

/-- C10: Already-connected construction — a reconcilor created for a
profile that already has an authenticated primary account starts with
periodic reconciliation running and registered with the Token Service,
with no sign-in completion event ever delivered. -/
theorem already_connected_construction (account : Account) :
    (mkAccountReconcilor
        (some account)).IsPeriodicReconciliationRunning = true ∧
    (mkAccountReconcilor
        (some account)).IsRegisteredWithTokenService = true := by
  simp [mkAccountReconcilor, handleSigninCompleted,
    AccountReconcilor.IsPeriodicReconciliationRunning,
    AccountReconcilor.IsRegisteredWithTokenService]

end AccountReconciliation
